import Mathlib

/-!
Verification of the MCP stdio-to-HTTP bridge
(`src/langgraph_mcp/streamable_http_mcp_server/server.py`).

The bridge multiplexes HTTP callers onto one child process speaking
line-delimited JSON-RPC over stdio.  We embed the bridge's shared state
(the internal id counter `message_id_counter` and the correlation table
`pending_responses`), the reader loop `read_mcp_responses`, the request
path `send_mcp_request`, the HTTP handler `mcp_endpoint`, and the
shutdown path of `lifespan`, and prove the correlation, cleanup and
error-surfacing properties of the design.

JSON values are modelled with integer numbers (the ids the bridge
manipulates are integers and arbitrary client-supplied JSON values;
no claim depends on float arithmetic).  Python represents JSON `null`
as `None`, so `dict.get` without a default collapses an explicit null
value and an absent key to the same result; the embedding mirrors this
where the source uses `.get`.
-/

namespace McpBridge

/-- JSON values as parsed by `json.loads`: objects are association lists
of string keys (parsed objects have unique keys). -/
inductive Json where
  | null
  | bool (b : Bool)
  | num (n : Int)
  | str (s : String)
  | arr (elems : List Json)
  | obj (fields : List (String × Json))
deriving Repr

/-- Key lookup in a parsed object's field list, first match. -/
def lookupKey : List (String × Json) → String → Option Json
  | [], _ => none
  | (k, v) :: rest, key => if k = key then some v else lookupKey rest key

/-- Python `d[key]` read on a JSON value: only objects support string keys. -/
def jsonGet : Json → String → Option Json
  | .obj fs, key => lookupKey fs key
  | _, _ => none

/-- Replace (or append) the binding of `key` in a field list, as Python
`d[key] = v` does. -/
def setKey : List (String × Json) → String → Json → List (String × Json)
  | [], key, v => [(key, v)]
  | (k, w) :: rest, key, v =>
      if k = key then (key, v) :: rest else (k, w) :: setKey rest key v

/-- Python `message["id"] = v` on a JSON object (the bridge only ever
assigns into dicts; on other values the source would fault earlier). -/
def jsonSetId : Json → Json → Json
  | .obj fs, v => .obj (setKey fs "id" v)
  | j, _ => j

/-- Whether a parsed JSON value is hashable in Python: lists and dicts
are not, so using one as the key of a dict-membership test such as
`response["id"] in pending_responses` raises `TypeError`. -/
def pyHashable : Json → Bool
  | .arr _ => false
  | .obj _ => false
  | _ => true

/-- Python `==` between a hashable parsed JSON id value and an `int`
key `k` of the correlation table, as the dict-membership test of
line 78 evaluates it once the id has been hashed: ints compare by
value and `True`/`False` equal `1`/`0`; strings and `None` never equal
an int.  Unhashable ids (lists, dicts) never reach this comparison:
the membership test raises `TypeError` first, which
`read_mcp_responses_handle` models separately. -/
def pyEqKey (v : Json) (k : Nat) : Bool :=
  match v with
  | .num i => i = (k : Int)
  | .bool b => (if b then (1 : Int) else 0) = (k : Int)
  | _ => false

/-- Shared bridge state: `message_id_counter` (line 28) and the
correlation table `pending_responses` (line 29), modelled as an
association list from internal id to the identity of the waiting
caller's completion slot. -/
structure BState where
  counter : Nat
  pending : List (Nat × Nat)
deriving Repr, DecidableEq

/-- Occurrence of `pat` as a contiguous subsequence of `l`. -/
def occursIn (pat : List Char) : List Char → Bool
  | [] => pat.isEmpty
  | c :: rest => pat.isPrefixOf (c :: rest) || occursIn pat rest

/-- Substring test, used to model Python's `"id" in s` when `s` is a
string. -/
def strHasSub (s pat : String) : Bool :=
  occursIn pat.toList s.toList

/-- Python `m.startswith(pre)`. -/
def strStartsWith (m pre : String) : Bool :=
  pre.toList.isPrefixOf m.toList

/-- Python `"id" in response` (line 78): key membership for dicts,
element membership for lists, substring for strings; `none` models the
`TypeError` raised on numbers, booleans and `None`. -/
def pyInResult (v : Json) : Option Bool :=
  match v with
  | .obj fs => some (fs.any (fun kv => kv.1 = "id"))
  | .arr xs => some (xs.any (fun x => match x with | .str s => s = "id" | _ => false))
  | .str s => some (strHasSub s "id")
  | _ => none

/-- Outcome of the reader loop's handling of one parsed value. -/
inductive ReaderOutcome where
  | resolved (internalId slotId : Nat) (resp : Json)
  | dropped
  | broke
deriving Repr

/-- Lines 75 to 92 of `read_mcp_responses`, after a successful
`json.loads`: if the value has a hashable `id` equal to a key of
`pending_responses`, resolve that entry's future with the value and
delete the entry; a hashable `id` with no matching entry falls through
(the loop continues).  Three `TypeError` paths land in the generic
handler, which breaks the loop: `"id" in response` on a number,
boolean or `None`; `response["id"]` indexing on a list or string that
passed the membership test; and `response["id"] in pending_responses`
on an unhashable id value (a list or dict). -/
def read_mcp_responses_handle (s : BState) (v : Json) : BState × ReaderOutcome :=
  match pyInResult v with
  | none => (s, .broke)
  | some false => (s, .dropped)
  | some true =>
      match v with
      | .obj fs =>
          match lookupKey fs "id" with
          | some vid =>
              if pyHashable vid then
                match s.pending.find? (fun e => pyEqKey vid e.1) with
                | some e =>
                    ({ s with pending := s.pending.filter (fun e2 => ¬ pyEqKey vid e2.1) },
                     .resolved e.1 e.2 (.obj fs))
                | none => (s, .dropped)
              else (s, .broke)
          | none => (s, .dropped)
      | _ => (s, .broke)

/-- Result of the reader loop's EOF branch (lines 62 to 73). -/
structure EofResult where
  state : BState
  crashed : List (Nat × Nat)
  loopEnds : Bool
deriving Repr, DecidableEq

/-- Lines 62 to 73 of `read_mcp_responses`: on an empty read the loop
prints a warning and, only when the process handle is present and its
`returncode` is already set, fails every pending future with the
crash error and clears the table; in every EOF case it breaks out of
the loop. -/
def read_mcp_responses_eof (s : BState) (processPresent returncodeSet : Bool) :
    EofResult :=
  if processPresent && returncodeSet then
    ⟨{ s with pending := [] }, s.pending, true⟩
  else
    ⟨s, [], true⟩

/-- Control action taken by one reader-loop iteration. -/
inductive LoopAct where
  | continueLoop
  | breakLoop
deriving Repr, DecidableEq

/-- One iteration of the reader loop on a line that was read
(lines 75 to 92): a `json.loads` failure is logged and the loop
continues with the state untouched; a parsed value is handled by
`read_mcp_responses_handle`, whose generic-exception branch breaks
the loop. The third component reports a resolved entry, if any. -/
def read_mcp_responses_line (s : BState) (line : Option Json) :
    BState × LoopAct × Option (Nat × Nat × Json) :=
  match line with
  | none => (s, .continueLoop, none)
  | some v =>
      match read_mcp_responses_handle s v with
      | (s2, .resolved k slot r) => (s2, .continueLoop, some (k, slot, r))
      | (s2, .dropped) => (s2, .continueLoop, none)
      | (s2, .broke) => (s2, .breakLoop, none)

/-- Failure signals a request can die with: the `RuntimeError`s of the
source (lines 101, 104, 109, 132), the crash failure installed by the
reader loop (line 71), and a mid-write I/O error raised by
`stdin.write`/`drain` (lines 122 to 123) — the latter is not a
`RuntimeError`, so it propagates to the generic handler of lines 225
to 234, which stringifies it; the model carries that text.  Timeouts
carry the elapsed bound; the source uses `30.0` seconds, modelled in
whole time units. -/
inductive BridgeError where
  | processNotRunning
  | processExited (code : Int)
  | stdinUnavailable
  | requestTimeout (bound : Nat)
  | processCrashed
  | writeFailed (detail : String)
deriving Repr, DecidableEq

/-- Text of each failure, as embedded into the JSON-RPC error message
(the source interpolates the same data into f-strings; a write failure
contributes `str(e)` of the raised I/O exception). -/
def errText : BridgeError → String
  | .processNotRunning => "MCP subprocess not running"
  | .processExited c => "MCP subprocess crashed (exit code: " ++ toString c ++ ")"
  | .stdinUnavailable => "MCP subprocess stdin not available"
  | .requestTimeout b => "MCP request timed out after " ++ toString b ++ "s"
  | .processCrashed => "MCP subprocess crashed"
  | .writeFailed detail => detail

/-- Default bound, in time units, of `send_mcp_request`'s wait
(line 95: `timeout: float = 30.0`). -/
def defaultTimeout : Nat := 30

/-- Lines 129 to 132 of `send_mcp_request`: on `asyncio.TimeoutError`,
delete the caller's own entry from `pending_responses` if still present
and raise the timeout failure carrying the elapsed bound. -/
def send_mcp_request_timeout (s : BState) (internal_id : Nat) : BState × BridgeError :=
  ({ s with pending := s.pending.filter (fun e => e.1 ≠ internal_id) },
   .requestTimeout defaultTimeout)

/-- Observable state of the child process handle: whether `mcp_process`
is set, whether its `stdin` pipe is available, and its `returncode`. -/
structure ProcState where
  present : Bool
  stdinOpen : Bool
  returncode : Option Int
deriving Repr, DecidableEq

/-- Lines 100 to 109 of `send_mcp_request`: the liveness checks run
before any registration or write, raising the corresponding failure. -/
def send_mcp_request_precheck (p : ProcState) : Option BridgeError :=
  if !p.present then some .processNotRunning
  else
    match p.returncode with
    | some c => some (.processExited c)
    | none => if !p.stdinOpen then some .stdinUnavailable else none

/-- Result of the registration section of `send_mcp_request`. -/
structure RegOut where
  st : BState
  internal_id : Nat
  outMsg : Json
  client_id : Json

/-- Lines 111 to 123 of `send_mcp_request`: record the caller's id
(`request.get("id")`, where Python collapses an explicit null and an
absent key to `None`), increment `message_id_counter`, overwrite the
outgoing message's id with the fresh internal id, and register the
caller's future in `pending_responses` under the internal id, all in
one scheduling-atomic section (no await between lines 111 and 119). -/
def send_mcp_request_register (s : BState) (slotId : Nat) (msg : Json) : RegOut :=
  let cid := (jsonGet msg "id").getD .null
  let internal := s.counter + 1
  { st := ⟨internal, (internal, slotId) :: s.pending⟩
  , internal_id := internal
  , outMsg := jsonSetId msg (.num (internal : Int))
  , client_id := cid }

/-- Line 127 of `send_mcp_request`: stamp the caller's original id back
into the matched response before returning it. -/
def send_mcp_request_restore (resp clientId : Json) : Json :=
  jsonSetId resp clientId

/-- How `mcp_endpoint` classifies an inbound body (lines 195 to 203):
a parsed dict whose string `method` starts with `"notifications/"` is a
notification; any other dict is a request (a missing method reads as
`"unknown"`); a non-dict body, or a non-string method, raises before
classification and lands in the generic exception handler. -/
inductive Classified where
  | notif
  | request
  | fault
deriving Repr, DecidableEq

/-- Classification logic of lines 195 to 203. -/
def mcp_endpoint_classify (msg : Json) : Classified :=
  match msg with
  | .obj fs =>
      match lookupKey fs "method" with
      | some (.str m) =>
          if strStartsWith m "notifications/" then .notif else .request
      | some _ => .fault
      | none => .request
  | _ => .fault

/-- Line 205 of `mcp_endpoint`: a notification is written to the child's
stdin only when the process handle is set, its stdin is available and
its returncode is unset. -/
def notifForwarded (p : ProcState) : Bool :=
  p.present && p.stdinOpen && p.returncode.isNone

/-- Line 198: `message_id = message.get("id", 0)` — the id stamped into
error replies; the pre-initialized `0` (line 195) also covers bodies on
which `.get` itself raises. -/
def mcp_endpoint_message_id (msg : Json) : Json :=
  match msg with
  | .obj fs => (lookupKey fs "id").getD (.num 0)
  | _ => .num 0

/-- Lines 216 to 234 of `mcp_endpoint`: every caught exception is turned
into a JSON-RPC error object with the fixed code `-32603` and the id of
line 198. -/
def errorResponse (msg : Json) (txt : String) : Json :=
  .obj [("jsonrpc", .str "2.0"),
        ("error", .obj [("code", .num (-32603)),
                        ("message", .str ("Internal error: " ++ txt))]),
        ("id", mcp_endpoint_message_id msg)]

/-- The JSON body returned when a request fails with a bridge failure:
the `RuntimeError` handler of lines 216 to 224 and the generic handler
of lines 225 to 234 (which catches mid-write I/O errors, among
others) build the same error object, differing only in the message
text. -/
def mcp_endpoint_failure_reply (msg : Json) (e : BridgeError) : Json :=
  errorResponse msg (errText e)

/-- What `mcp_endpoint` returns, or is left doing, after its synchronous
prefix: an empty 204 acknowledgment (recording whether the stdin write
happened), a registered request awaiting its future, or an error body. -/
inductive EndpointResult where
  | noContent (wrote : Bool)
  | awaitingResponse (internalId : Nat)
  | errorReply (body : Json)
deriving Repr

/-- Lines 195 to 224 of `mcp_endpoint` up to the first await on a
future: classify; notifications return 204 immediately (writing through
only per `notifForwarded`); requests run the liveness prechecks and, if
they pass, register in the correlation table and await; precheck
failures and classification faults return an error body. -/
def mcp_endpoint_step (p : ProcState) (s : BState) (slotId : Nat) (msg : Json) :
    BState × EndpointResult :=
  match mcp_endpoint_classify msg with
  | .fault => (s, .errorReply (errorResponse msg "unhandled exception"))
  | .notif => (s, .noContent (notifForwarded p))
  | .request =>
      match send_mcp_request_precheck p with
      | some e => (s, .errorReply (mcp_endpoint_failure_reply msg e))
      | none =>
          let r := send_mcp_request_register s slotId msg
          (r.st, .awaitingResponse r.internal_id)

/-- Steps taken by the shutdown half of `lifespan` (lines 151 to 155). -/
inductive ShutdownAct where
  | terminateChild
  | waitForExit
  | killChild
deriving Repr, DecidableEq

/-- Lines 151 to 155: when a process handle exists, shutdown calls
`terminate()` once and then `await mcp_process.wait()`; no other action
is taken. -/
def lifespan_shutdown (processPresent : Bool) : List ShutdownAct :=
  if processPresent then [.terminateChild, .waitForExit] else []

/-- Semantics of `await mcp_process.wait()` (line 155): the await
completes exactly when the child exits; a child that exits at time `t`
makes shutdown finish at `t`, and a child that never exits (`none`)
makes the await never complete. -/
def lifespan_shutdown_completion (childExitTime : Option Nat) : Option Nat :=
  childExitTime

/-- Whole-bridge trace state: the shared `BState` plus the history the
correlation claims speak about — each HTTP task's recorded `client_id`
(keyed by a task identity), the internal ids handed out (newest first),
the messages written to the child's stdin, and the responses and
failures returned to callers. -/
structure World where
  st : BState
  slots : List (Nat × Json)
  assigned : List Nat
  sent : List Json
  delivered : List (Nat × Json)
  failed : List (Nat × BridgeError)

/-- Bridge state at startup: counter 0, empty table, no history. -/
def World.init : World := ⟨⟨0, []⟩, [], [], [], [], []⟩

/-- Association lookup of a task's recorded client id. -/
def lookupSlot : List (Nat × Json) → Nat → Option Json
  | [], _ => none
  | (k, v) :: rest, key => if k = key then some v else lookupSlot rest key

/-- An HTTP task runs the registration section of `send_mcp_request`:
the table and counter advance, the task's `client_id` local is
recorded, and the remapped message is written to the child. -/
def submitW (w : World) (slot : Nat) (msg : Json) : World :=
  let r := send_mcp_request_register w.st slot msg
  { st := r.st
  , slots := (slot, r.client_id) :: w.slots
  , assigned := r.internal_id :: w.assigned
  , sent := w.sent ++ [r.outMsg]
  , delivered := w.delivered
  , failed := w.failed }

/-- The reader loop handles one parsed line; if it resolves an entry,
the awaiting task resumes at line 127 and returns the response with its
own recorded `client_id` stamped back in. -/
def childW (w : World) (v : Json) : World :=
  match read_mcp_responses_handle w.st v with
  | (s2, .resolved _ slot resp) =>
      { w with
          st := s2
        , delivered := w.delivered ++
            [(slot, send_mcp_request_restore resp ((lookupSlot w.slots slot).getD .null))] }
  | (s2, _) => { w with st := s2 }

/-- A task's wait times out: it removes its own entry (lines 129 to
132) and its caller receives the timeout failure. -/
def timeoutW (w : World) (slot internalId : Nat) : World :=
  let r := send_mcp_request_timeout w.st internalId
  { w with st := r.1, failed := w.failed ++ [(slot, r.2)] }

/-- The reader loop hits EOF; drained entries fail their callers with
the crash failure. -/
def eofW (w : World) (present rcSet : Bool) : World :=
  let r := read_mcp_responses_eof w.st present rcSet
  { w with
      st := r.state
    , failed := w.failed ++ r.crashed.map (fun e => (e.2, BridgeError.processCrashed)) }

/-- Interleaving of the bridge's concurrent activities.  A submit
carries a parsed dict (non-dict bodies fault in `mcp_endpoint` before
reaching `send_mcp_request`) and a fresh task identity (each HTTP call
owns a distinct future and distinct locals). -/
inductive Step : World → World → Prop where
  | submit (w : World) (slot : Nat) (fs : List (String × Json))
      (hfresh : ∀ cv ∈ w.slots, cv.1 ≠ slot) :
      Step w (submitW w slot (.obj fs))
  | child (w : World) (v : Json) : Step w (childW w v)
  | timeout (w : World) (slot internalId : Nat) :
      Step w (timeoutW w slot internalId)
  | eof (w : World) (present rcSet : Bool) :
      Step w (eofW w present rcSet)

/-- Worlds reachable from bridge startup by any interleaving. -/
inductive Reachable : World → Prop where
  | init : Reachable World.init
  | step {w w2 : World} : Reachable w → Step w w2 → Reachable w2

/-- Inductive invariant of the bridge trace: table keys are bounded by
the counter and distinct; assigned internal ids are strictly decreasing
(newest first) and bounded by the counter; task identities are unique;
every pending entry belongs to a recorded task; every delivered
response carries its task's recorded client id; every message sent to
the child carries an assigned internal id. -/
structure Inv (w : World) : Prop where
  pendingLe : ∀ e ∈ w.st.pending, e.1 ≤ w.st.counter
  pendingNodup : (w.st.pending.map Prod.fst).Nodup
  assignedLe : ∀ i ∈ w.assigned, i ≤ w.st.counter
  assignedSorted : w.assigned.Pairwise (· > ·)
  slotsNodup : (w.slots.map Prod.fst).Nodup
  pendingSlots : ∀ e ∈ w.st.pending, ∃ cid, lookupSlot w.slots e.2 = some cid
  deliveredOk : ∀ pr ∈ w.delivered,
    ∃ cid, lookupSlot w.slots pr.1 = some cid ∧ jsonGet pr.2 "id" = some cid
  sentIds : ∀ m ∈ w.sent, ∃ i, i ∈ w.assigned ∧ jsonGet m "id" = some (.num (i : Int))

/-- Example request used by the concrete traces below: a `ping` with
client id `1`; two concurrent callers both use it, so their client ids
collide. -/
def exMsg : Json := .obj [("jsonrpc", .str "2.0"), ("method", .str "ping"), ("id", .num 1)]

/-- Child's answer to the second caller's remapped request (internal
id 2), emitted first (out of order). -/
def exRespB : Json := .obj [("id", .num 2), ("result", .str "B")]

/-- Child's answer to the first caller's remapped request (internal
id 1), emitted second. -/
def exRespA : Json := .obj [("id", .num 1), ("result", .str "A")]

/-- Two concurrent submissions with colliding client ids. -/
def exW2 : World := submitW (submitW World.init 0 exMsg) 1 exMsg

/-- The child then answers both requests in reverse order. -/
def exW4 : World := childW (childW exW2 exRespB) exRespA

/-! ## Helper lemmas -/

theorem submitW_st (w : World) (slot : Nat) (msg : Json) :
    (submitW w slot msg).st =
      ⟨w.st.counter + 1, (w.st.counter + 1, slot) :: w.st.pending⟩ := rfl

theorem submitW_slots (w : World) (slot : Nat) (msg : Json) :
    (submitW w slot msg).slots = (slot, (jsonGet msg "id").getD .null) :: w.slots := rfl

theorem submitW_assigned (w : World) (slot : Nat) (msg : Json) :
    (submitW w slot msg).assigned = (w.st.counter + 1) :: w.assigned := rfl

theorem submitW_sent (w : World) (slot : Nat) (msg : Json) :
    (submitW w slot msg).sent =
      w.sent ++ [jsonSetId msg (.num ((w.st.counter + 1 : Nat) : Int))] := rfl

theorem submitW_delivered (w : World) (slot : Nat) (msg : Json) :
    (submitW w slot msg).delivered = w.delivered := rfl

theorem lookupKey_any {fs : List (String × Json)} {key : String} {v : Json}
    (h : lookupKey fs key = some v) : fs.any (fun kv => kv.1 = key) = true := by
  induction fs with
  | nil => simp [lookupKey] at h
  | cons kv rest ih =>
      obtain ⟨k, w⟩ := kv
      by_cases hk : k = key
      · simp [List.any_cons, hk]
      · rw [lookupKey, if_neg hk] at h
        simp [List.any_cons, ih h]

theorem lookupKey_setKey (fs : List (String × Json)) (key : String) (v : Json) :
    lookupKey (setKey fs key v) key = some v := by
  induction fs with
  | nil => simp [setKey, lookupKey]
  | cons kv rest ih =>
      obtain ⟨k, w⟩ := kv
      by_cases hk : k = key
      · simp [setKey, hk, lookupKey]
      · simp [setKey, hk, lookupKey, ih]

theorem jsonGet_setId (fs : List (String × Json)) (v : Json) :
    jsonGet (jsonSetId (.obj fs) v) "id" = some v := by
  simp [jsonSetId, jsonGet, lookupKey_setKey]

theorem lookupSlot_mem_key {l : List (Nat × Json)} {key : Nat} {v : Json}
    (h : lookupSlot l key = some v) : key ∈ l.map Prod.fst := by
  induction l with
  | nil => simp [lookupSlot] at h
  | cons kv rest ih =>
      obtain ⟨k, w⟩ := kv
      by_cases hk : k = key
      · simp [hk]
      · rw [lookupSlot, if_neg hk] at h
        simp [ih h]

theorem lookupSlot_of_mem_nodup {l : List (Nat × Json)} {key : Nat} {v : Json}
    (hnd : (l.map Prod.fst).Nodup) (hmem : (key, v) ∈ l) :
    lookupSlot l key = some v := by
  induction l with
  | nil => simp at hmem
  | cons kv rest ih =>
      obtain ⟨k, w⟩ := kv
      rw [List.map_cons, List.nodup_cons] at hnd
      rcases List.mem_cons.mp hmem with h | h
      · obtain ⟨hk, hv⟩ := Prod.mk.injEq .. ▸ congrArg id h
        cases h
        simp [lookupSlot]
      · have hk : k ≠ key := by
          intro hkk
          subst hkk
          exact hnd.1 (List.mem_map.mpr ⟨(k, v), h, rfl⟩)
        rw [lookupSlot, if_neg hk]
        exact ih hnd.2 h

/-- Exhaustive characterization of one reader-loop handling step: either
the state is returned untouched with a non-resolving outcome (dropped
or a loop-breaking error), or the value is a dict whose hashable id
matches a pending entry, which is removed and resolved with the parsed
value. -/
theorem handle_cases (s : BState) (v : Json) :
    (∃ o, read_mcp_responses_handle s v = (s, o) ∧
       ∀ k sl r, o ≠ .resolved k sl r) ∨
    (∃ fs vid k sl,
       v = .obj fs ∧
       lookupKey fs "id" = some vid ∧
       (k, sl) ∈ s.pending ∧
       s.pending.find? (fun e => pyEqKey vid e.1) = some (k, sl) ∧
       read_mcp_responses_handle s v =
         ({ s with pending := s.pending.filter (fun e2 => ¬ pyEqKey vid e2.1) },
          .resolved k sl (.obj fs))) := by
  cases v with
  | null => exact Or.inl ⟨.broke, rfl, by intro k sl r h; cases h⟩
  | bool b => exact Or.inl ⟨.broke, rfl, by intro k sl r h; cases h⟩
  | num n => exact Or.inl ⟨.broke, rfl, by intro k sl r h; cases h⟩
  | str t =>
      by_cases hb : strHasSub t "id"
      · refine Or.inl ⟨.broke, ?_, by intro k sl r h; cases h⟩
        simp [read_mcp_responses_handle, pyInResult, hb]
      · refine Or.inl ⟨.dropped, ?_, by intro k sl r h; cases h⟩
        simp [read_mcp_responses_handle, pyInResult, hb]
  | arr xs =>
      by_cases hb : xs.any (fun x => match x with | .str u => u = "id" | _ => false)
      · refine Or.inl ⟨.broke, ?_, by intro k sl r h; cases h⟩
        simp [read_mcp_responses_handle, pyInResult, hb]
      · refine Or.inl ⟨.dropped, ?_, by intro k sl r h; cases h⟩
        simp [read_mcp_responses_handle, pyInResult, hb]
  | obj fs =>
      by_cases hany : fs.any (fun kv => kv.1 = "id")
      · cases hl : lookupKey fs "id" with
        | none =>
            refine Or.inl ⟨.dropped, ?_, by intro k sl r h; cases h⟩
            simp [read_mcp_responses_handle, pyInResult, hany, hl]
        | some vid =>
            by_cases hh : pyHashable vid
            · cases hf : s.pending.find? (fun e => pyEqKey vid e.1) with
              | none =>
                  refine Or.inl ⟨.dropped, ?_, by intro k sl r h; cases h⟩
                  simp [read_mcp_responses_handle, pyInResult, hany, hl, hh, hf]
              | some e =>
                  obtain ⟨k, sl⟩ := e
                  refine Or.inr ⟨fs, vid, k, sl, rfl, hl, List.mem_of_find?_eq_some hf, hf, ?_⟩
                  simp [read_mcp_responses_handle, pyInResult, hany, hl, hh, hf]
            · refine Or.inl ⟨.broke, ?_, by intro k sl r h; cases h⟩
              simp [read_mcp_responses_handle, pyInResult, hany, hl, hh]
      · refine Or.inl ⟨.dropped, ?_, by intro k sl r h; cases h⟩
        simp [read_mcp_responses_handle, pyInResult, hany]

/-! ## C2 — EOF handling by the reader loop -/

/-- C2 counterexample: with the process handle set but its exit status
not yet confirmed (`returncode is None`), an EOF on stdout resolves no
pending slot and leaves the correlation table non-empty; only the loop
exit happens.  This falsifies the claim that the drain occurs "even
before the OS-level exit status is confirmed". -/
theorem eof_before_exit_status_keeps_pending :
    (read_mcp_responses_eof ⟨5, [(3, 0), (4, 1)]⟩ true false).crashed = [] ∧
    (read_mcp_responses_eof ⟨5, [(3, 0), (4, 1)]⟩ true false).state.pending ≠ [] ∧
    (read_mcp_responses_eof ⟨5, [(3, 0), (4, 1)]⟩ true false).loopEnds = true := by
  decide

/-- C2 amended: on EOF the reader loop always terminates; when the
process handle is present and its exit status is already set, every
pending entry is resolved with the crash failure and the table is
emptied; when the exit status is not yet set, no entry is resolved and
the table is left as it was. -/
theorem eof_drain_requires_returncode (s : BState) (present rcSet : Bool) :
    (read_mcp_responses_eof s present rcSet).loopEnds = true ∧
    (present = true → rcSet = true →
       (read_mcp_responses_eof s present rcSet).state.pending = [] ∧
       (read_mcp_responses_eof s present rcSet).crashed = s.pending) ∧
    (rcSet = false →
       (read_mcp_responses_eof s present rcSet).state = s ∧
       (read_mcp_responses_eof s present rcSet).crashed = []) := by
  refine ⟨?_, ?_, ?_⟩
  · by_cases h : present && rcSet <;> simp [read_mcp_responses_eof, h]
  · intro hp hr
    subst hp; subst hr
    simp [read_mcp_responses_eof]
  · intro hr
    subst hr
    simp [read_mcp_responses_eof]

/-- C2 witness: a crash-confirmed EOF with one pending entry drains it. -/
theorem eof_drain_requires_returncode_witness :
    (read_mcp_responses_eof ⟨3, [(2, 7)]⟩ true true).state.pending = [] ∧
    (read_mcp_responses_eof ⟨3, [(2, 7)]⟩ true true).crashed = [(2, 7)] :=
  (eof_drain_requires_returncode ⟨3, [(2, 7)]⟩ true true).2.1 rfl rfl

/-! ## C4 — timeout cleanup -/

/-- C4: a timed-out request removes exactly its own entry from the
correlation table (every other entry survives untouched, the counter is
untouched) and fails with the timeout error carrying the elapsed
bound, which defaults to 30 time units. -/
theorem timeout_removes_only_own_entry (s : BState) (i : Nat) :
    (send_mcp_request_timeout s i).2 = .requestTimeout defaultTimeout ∧
    defaultTimeout = 30 ∧
    (send_mcp_request_timeout s i).1.counter = s.counter ∧
    ∀ e, e ∈ (send_mcp_request_timeout s i).1.pending ↔ e ∈ s.pending ∧ e.1 ≠ i := by
  refine ⟨rfl, rfl, rfl, fun e => ?_⟩
  simp [send_mcp_request_timeout, List.mem_filter]

/-- C4 witness: timing out internal id 2 removes exactly that entry. -/
theorem timeout_removes_only_own_entry_witness :
    (send_mcp_request_timeout ⟨4, [(2, 0), (3, 1)]⟩ 2).1.pending = [(3, 1)] ∧
    (send_mcp_request_timeout ⟨4, [(2, 0), (3, 1)]⟩ 2).2 = .requestTimeout 30 := by
  have h := timeout_removes_only_own_entry ⟨4, [(2, 0), (3, 1)]⟩ 2
  exact ⟨by decide, h.1⟩

/-! ## C6 — unmatched response ids -/

/-- C6 counterexample: the line `{"id": []}` carries an id that is not
(and can never be) a key of the correlation table, yet it is not
dropped silently: `response["id"] in pending_responses` raises
`TypeError` on the unhashable list id, the generic handler catches it
and the reader loop terminates — an error is raised and the loop
ends, refuting the universal silent-drop claim. -/
theorem reader_unhashable_id_breaks :
    read_mcp_responses_line ⟨2, [(1, 0)]⟩ (some (.obj [("id", .arr [])])) =
      (⟨2, [(1, 0)]⟩, .breakLoop, none) := rfl

/-- C6 amended: a parsed line whose `id` is a hashable JSON value
(null, boolean, number or string) matching no key of the correlation
table leaves the whole bridge state (counter and every pending entry)
unchanged, resolves nothing and raises nothing: the handling step
returns the state untouched with the dropped outcome.  A line whose
`id` is an unhashable value (list or dict) instead raises `TypeError`
in the membership test, which the generic handler turns into a loop
break. -/
theorem reader_unmatched_id_frame (s : BState) (fs : List (String × Json)) (vid : Json)
    (hid : lookupKey fs "id" = some vid)
    (hhash : pyHashable vid = true)
    (hnone : ∀ e ∈ s.pending, pyEqKey vid e.1 = false) :
    read_mcp_responses_handle s (.obj fs) = (s, .dropped) := by
  have hany := lookupKey_any hid
  have hfind : s.pending.find? (fun e => pyEqKey vid e.1) = none := by
    rw [List.find?_eq_none]
    intro e he
    simp [hnone e he]
  simp [read_mcp_responses_handle, pyInResult, hany, hid, hhash, hfind]

/-- C6 witness: a response with the hashable id 7 against a table
holding only internal id 1 is dropped with no state change. -/
theorem reader_unmatched_id_frame_witness :
    read_mcp_responses_handle ⟨2, [(1, 0)]⟩ (.obj [("id", .num 7)]) =
      (⟨2, [(1, 0)]⟩, .dropped) :=
  reader_unmatched_id_frame ⟨2, [(1, 0)]⟩ [("id", .num 7)] (.num 7) rfl rfl (by decide)

/-! ## C7 — malformed lines from the child -/

/-- C7 counterexample: the line `5` — valid JSON but a malformed
JSON-RPC message — does not continue the loop: the membership test
`"id" in response` raises `TypeError`, the generic handler catches it
and breaks, so the reader loop terminates on malformed child input. -/
theorem reader_nonobject_line_breaks :
    read_mcp_responses_line ⟨0, []⟩ (some (.num 5)) =
      (⟨0, []⟩, .breakLoop, none) := rfl

/-- C7 amended: a line that fails to parse as JSON is logged and
skipped — the loop continues with the state untouched and nothing
resolved; however a line that parses to a non-dict JSON value (such as
a bare number) is caught by the generic handler, which terminates the
loop. -/
theorem reader_parse_failure_continues (s : BState) :
    read_mcp_responses_line s none = (s, .continueLoop, none) ∧
    read_mcp_responses_line s (some (.num 5)) = (s, .breakLoop, none) :=
  ⟨rfl, rfl⟩

/-- C7 witness: a parse failure with one entry pending leaves the
table intact and the loop running. -/
theorem reader_parse_failure_continues_witness :
    read_mcp_responses_line ⟨2, [(1, 0)]⟩ none = (⟨2, [(1, 0)]⟩, .continueLoop, none) :=
  (reader_parse_failure_continues ⟨2, [(1, 0)]⟩).1

/-! ## C9 — shutdown of the child process -/

/-- C9 counterexample: shutdown never force-kills the child, and the
wait after `terminate()` is unbounded — a child that never exits makes
shutdown never complete, contradicting the claimed bounded grace
period and forced kill. -/
theorem shutdown_unbounded_no_kill :
    ShutdownAct.killChild ∉ lifespan_shutdown true ∧
    lifespan_shutdown_completion none = none := by
  decide

/-- C9 amended: at shutdown the bridge sends the terminate signal
exactly once and then waits for the child to exit with no bound and no
forced kill: shutdown completes exactly when the child exits, however
late that is. -/
theorem shutdown_terminate_once_unbounded_wait :
    lifespan_shutdown true = [.terminateChild, .waitForExit] ∧
    lifespan_shutdown false = [] ∧
    ∀ t, lifespan_shutdown_completion t = t :=
  ⟨rfl, rfl, fun _ => rfl⟩

/-- C9 witness: a child exiting 1000 time units after the terminate
signal makes shutdown complete only then. -/
theorem shutdown_terminate_once_unbounded_wait_witness :
    lifespan_shutdown_completion (some 1000) = some 1000 :=
  shutdown_terminate_once_unbounded_wait.2.2 (some 1000)

/-! ## Invariant preservation -/

theorem inv_init : Inv World.init := by
  constructor <;> simp [World.init]

theorem inv_submitW {w : World} (hw : Inv w) (slot : Nat) (msg : Json)
    (hobj : ∃ fs, msg = Json.obj fs)
    (hfresh : ∀ cv ∈ w.slots, cv.1 ≠ slot) :
    Inv (submitW w slot msg) := by
  obtain ⟨fs, rfl⟩ := hobj
  constructor
  case pendingLe =>
    simp only [submitW_st]
    intro e he
    rcases List.mem_cons.mp he with h | h
    · subst h; exact Nat.le_refl _
    · exact Nat.le_succ_of_le (hw.pendingLe e h)
  case pendingNodup =>
    simp only [submitW_st, List.map_cons]
    refine List.nodup_cons.mpr ⟨?_, hw.pendingNodup⟩
    intro hmem
    rcases List.mem_map.mp hmem with ⟨e, he, hke⟩
    have := hw.pendingLe e he
    omega
  case assignedLe =>
    simp only [submitW_st, submitW_assigned]
    intro i hi
    rcases List.mem_cons.mp hi with h | h
    · subst h; exact Nat.le_refl _
    · exact Nat.le_succ_of_le (hw.assignedLe i h)
  case assignedSorted =>
    simp only [submitW_assigned]
    refine List.pairwise_cons.mpr ⟨?_, hw.assignedSorted⟩
    intro j hj
    have := hw.assignedLe j hj
    omega
  case slotsNodup =>
    simp only [submitW_slots, List.map_cons]
    refine List.nodup_cons.mpr ⟨?_, hw.slotsNodup⟩
    intro hmem
    rcases List.mem_map.mp hmem with ⟨cv, hcv, hk⟩
    exact hfresh cv hcv hk
  case pendingSlots =>
    simp only [submitW_st, submitW_slots]
    intro e he
    by_cases hsl : slot = e.2
    · refine ⟨(jsonGet (Json.obj fs) "id").getD .null, ?_⟩
      simp [lookupSlot, hsl]
    · rcases List.mem_cons.mp he with h | h
      · subst h; exact absurd rfl hsl
      · obtain ⟨cid, hcid⟩ := hw.pendingSlots e h
        exact ⟨cid, by simp [lookupSlot, hsl, hcid]⟩
  case deliveredOk =>
    simp only [submitW_slots, submitW_delivered]
    intro pr hpr
    obtain ⟨cid, hcid, hid⟩ := hw.deliveredOk pr hpr
    have hne : slot ≠ pr.1 := by
      intro h
      rcases List.mem_map.mp (lookupSlot_mem_key hcid) with ⟨cv, hcv, hk⟩
      exact hfresh cv hcv (hk.trans h.symm)
    exact ⟨cid, by simp [lookupSlot, hne, hcid], hid⟩
  case sentIds =>
    simp only [submitW_sent, submitW_assigned]
    intro m hm
    rcases List.mem_append.mp hm with h | h
    · obtain ⟨i, hi, hgi⟩ := hw.sentIds m h
      exact ⟨i, List.mem_cons_of_mem _ hi, hgi⟩
    · rcases List.mem_singleton.mp h with rfl
      exact ⟨w.st.counter + 1, List.mem_cons_self _ _, jsonGet_setId fs _⟩

theorem inv_childW {w : World} (hw : Inv w) (v : Json) : Inv (childW w v) := by
  rcases handle_cases w.st v with ⟨o, ho, hno⟩ | ⟨fs, vid, k, sl, hv, hvid, hmem, hf, heq⟩
  · have hcw : childW w v = w := by
      unfold childW
      rw [ho]
      cases o with
      | resolved a b c => exact absurd rfl (hno a b c)
      | dropped => rfl
      | broke => rfl
    rw [hcw]; exact hw
  · have hcw : childW w v =
        { w with
            st := { w.st with
                      pending := w.st.pending.filter (fun e2 => ¬ pyEqKey vid e2.1) }
          , delivered := w.delivered ++
              [(sl, send_mcp_request_restore (.obj fs)
                      ((lookupSlot w.slots sl).getD .null))] } := by
      unfold childW
      rw [heq]
    rw [hcw]
    obtain ⟨cid0, hcid0⟩ := hw.pendingSlots (k, sl) hmem
    constructor
    case pendingLe =>
      intro e he
      exact hw.pendingLe e (List.mem_of_mem_filter he)
    case pendingNodup =>
      exact List.Nodup.sublist ((List.filter_sublist _).map Prod.fst) hw.pendingNodup
    case assignedLe => exact hw.assignedLe
    case assignedSorted => exact hw.assignedSorted
    case slotsNodup => exact hw.slotsNodup
    case pendingSlots =>
      intro e he
      exact hw.pendingSlots e (List.mem_of_mem_filter he)
    case deliveredOk =>
      intro pr hpr
      rcases List.mem_append.mp hpr with h | h
      · exact hw.deliveredOk pr h
      · rcases List.mem_singleton.mp h with rfl
        refine ⟨cid0, hcid0, ?_⟩
        simp only [send_mcp_request_restore, hcid0, Option.getD_some]
        exact jsonGet_setId fs cid0
    case sentIds => exact hw.sentIds

theorem inv_timeoutW {w : World} (hw : Inv w) (slot internalId : Nat) :
    Inv (timeoutW w slot internalId) := by
  constructor
  case pendingLe =>
    intro e he
    exact hw.pendingLe e (List.mem_of_mem_filter he)
  case pendingNodup =>
    exact List.Nodup.sublist ((List.filter_sublist _).map Prod.fst) hw.pendingNodup
  case assignedLe => exact hw.assignedLe
  case assignedSorted => exact hw.assignedSorted
  case slotsNodup => exact hw.slotsNodup
  case pendingSlots =>
    intro e he
    exact hw.pendingSlots e (List.mem_of_mem_filter he)
  case deliveredOk => exact hw.deliveredOk
  case sentIds => exact hw.sentIds

theorem inv_eofW {w : World} (hw : Inv w) (present rcSet : Bool) :
    Inv (eofW w present rcSet) := by
  by_cases h : present = true ∧ rcSet = true
  · obtain ⟨hp, hr⟩ := h
    subst hp; subst hr
    have hcw : eofW w true true =
        { w with
            st := { w.st with pending := [] }
          , failed := w.failed ++
              w.st.pending.map (fun e => (e.2, BridgeError.processCrashed)) } := by
      simp [eofW, read_mcp_responses_eof]
    rw [hcw]
    refine ⟨?_, ?_, ?_, ?_, ?_, ?_, ?_, ?_⟩
    · intro e he; exact absurd he (List.not_mem_nil e)
    · exact List.nodup_nil
    · exact hw.assignedLe
    · exact hw.assignedSorted
    · exact hw.slotsNodup
    · intro e he; exact absurd he (List.not_mem_nil e)
    · exact hw.deliveredOk
    · exact hw.sentIds
  · have hb : (present && rcSet) = false := by
      cases present <;> cases rcSet <;> simp_all
    have hcw : eofW w present rcSet = w := by
      simp [eofW, read_mcp_responses_eof, hb]
    rw [hcw]; exact hw

theorem inv_step {w w2 : World} (hw : Inv w) (h : Step w w2) : Inv w2 := by
  cases h with
  | submit slot fs hfresh => exact inv_submitW hw slot (.obj fs) ⟨fs, rfl⟩ hfresh
  | child v => exact inv_childW hw v
  | timeout slot internalId => exact inv_timeoutW hw slot internalId
  | eof present rcSet => exact inv_eofW hw present rcSet

theorem inv_reachable {w : World} (h : Reachable w) : Inv w := by
  induction h with
  | init => exact inv_init
  | step _ hs ih => exact inv_step ih hs

/-! ## C1 — correlation restores each caller's own client id -/

/-- C1: along any interleaving of concurrent submissions (client ids
arbitrary, possibly colliding) and child lines arriving in any order,
every response returned to a caller carries that caller's own original
client id verbatim (the recorded JSON value itself, hence also its
type); moreover every message written to the child carries a freshly
assigned internal id in place of the client id, and the correlation
table is keyed by those internal ids. -/
theorem correlation_restores_client_id (w : World) (hr : Reachable w) :
    (∀ slot cid r, (slot, cid) ∈ w.slots → (slot, r) ∈ w.delivered →
       jsonGet r "id" = some cid) ∧
    (∀ m ∈ w.sent, ∃ i, i ∈ w.assigned ∧ jsonGet m "id" = some (.num (i : Int))) := by
  have hw := inv_reachable hr
  refine ⟨?_, hw.sentIds⟩
  intro slot cid r hslot hdel
  obtain ⟨cid2, hcid2, hid⟩ := hw.deliveredOk (slot, r) hdel
  have hl := lookupSlot_of_mem_nodup hw.slotsNodup hslot
  rw [hl] at hcid2
  obtain rfl : cid = cid2 := Option.some.inj hcid2
  exact hid

/-- C1 witness: two callers submit concurrently with the same client
id `1`; the child answers them out of order; the first caller's
returned response carries its own client id `1`. -/
theorem correlation_restores_client_id_witness :
    jsonGet (send_mcp_request_restore exRespA (.num 1)) "id" = some (.num 1) := by
  have h1 : Reachable (submitW World.init 0 exMsg) :=
    .step .init (.submit _ 0 _ (by intro cv hcv; exact absurd hcv (List.not_mem_nil cv)))
  have h2 : Reachable exW2 :=
    .step h1 (.submit _ 1 _ (by
      intro cv hcv
      rcases List.mem_singleton.mp hcv with rfl
      decide))
  have h4 : Reachable exW4 :=
    .step (.step h2 (.child _ exRespB)) (.child _ exRespA)
  have hslots : exW4.slots = [(1, .num 1), (0, .num 1)] := rfl
  have hdel : exW4.delivered =
      [(1, send_mcp_request_restore exRespB (.num 1)),
       (0, send_mcp_request_restore exRespA (.num 1))] := rfl
  refine (correlation_restores_client_id exW4 h4).1 0 (.num 1)
      (send_mcp_request_restore exRespA (.num 1)) ?_ ?_
  · rw [hslots]
    exact List.mem_cons_of_mem _ (List.mem_cons_self _ _)
  · rw [hdel]
    exact List.mem_cons_of_mem _ (List.mem_cons_self _ _)

/-! ## C8 — internal id counter: monotonic, fresh, unique keys -/

/-- C8: in every reachable bridge state, the next submission (which
increments the counter and inserts into the table in one
scheduling-atomic section) receives an internal id strictly greater
than every previously assigned internal id, that id is not already a
key of the correlation table, the counter advances by exactly one, the
assigned ids remain strictly decreasing from newest to oldest, and the
table keys remain pairwise distinct. -/
theorem internal_id_fresh_monotonic (w : World) (hr : Reachable w) (slot : Nat) (msg : Json) :
    (∀ j ∈ w.assigned, j < (send_mcp_request_register w.st slot msg).internal_id) ∧
    (send_mcp_request_register w.st slot msg).internal_id ∉ w.st.pending.map Prod.fst ∧
    (submitW w slot msg).st.counter = w.st.counter + 1 ∧
    (submitW w slot msg).assigned.Pairwise (· > ·) ∧
    ((submitW w slot msg).st.pending.map Prod.fst).Nodup := by
  have hw := inv_reachable hr
  have hfreshkey : (send_mcp_request_register w.st slot msg).internal_id ∉
      w.st.pending.map Prod.fst := by
    intro hmem
    rcases List.mem_map.mp hmem with ⟨e, he, hke⟩
    have := hw.pendingLe e he
    have : e.1 = w.st.counter + 1 := hke
    omega
  refine ⟨?_, hfreshkey, rfl, ?_, ?_⟩
  · intro j hj
    have := hw.assignedLe j hj
    have hi : (send_mcp_request_register w.st slot msg).internal_id = w.st.counter + 1 := rfl
    omega
  · rw [submitW_assigned]
    refine List.pairwise_cons.mpr ⟨?_, hw.assignedSorted⟩
    intro j hj
    have := hw.assignedLe j hj
    omega
  · rw [submitW_st, List.map_cons]
    refine List.nodup_cons.mpr ⟨?_, hw.pendingNodup⟩
    intro hmem
    rcases List.mem_map.mp hmem with ⟨e, he, hke⟩
    have := hw.pendingLe e he
    omega

/-- C8 witness: after two submissions, the third internal id is 3,
strictly above both assigned ids 2 and 1, and absent from the table. -/
theorem internal_id_fresh_monotonic_witness :
    (∀ j ∈ exW2.assigned, j < (send_mcp_request_register exW2.st 2 exMsg).internal_id) ∧
    (send_mcp_request_register exW2.st 2 exMsg).internal_id ∉ exW2.st.pending.map Prod.fst ∧
    (submitW exW2 2 exMsg).st.counter = exW2.st.counter + 1 ∧
    (submitW exW2 2 exMsg).assigned.Pairwise (· > ·) ∧
    ((submitW exW2 2 exMsg).st.pending.map Prod.fst).Nodup := by
  have h1 : Reachable (submitW World.init 0 exMsg) :=
    .step .init (.submit _ 0 _ (by intro cv hcv; exact absurd hcv (List.not_mem_nil cv)))
  have h2 : Reachable exW2 :=
    .step h1 (.submit _ 1 _ (by
      intro cv hcv
      rcases List.mem_singleton.mp hcv with rfl
      decide))
  exact internal_id_fresh_monotonic exW2 h2 2 exMsg

/-! ## C3 — what counts as a notification -/

/-- C3 counterexample: a message with no `id` field whose method is
`tools/list` is classified as a request, not a notification: it
creates a correlation table entry (internal id 1) and leaves the
endpoint awaiting a response instead of returning the empty 204
acknowledgment. -/
theorem idless_request_creates_entry :
    jsonGet (.obj [("jsonrpc", .str "2.0"), ("method", .str "tools/list")]) "id" = none ∧
    mcp_endpoint_classify
      (.obj [("jsonrpc", .str "2.0"), ("method", .str "tools/list")]) = .request ∧
    (mcp_endpoint_step ⟨true, true, none⟩ ⟨0, []⟩ 0
        (.obj [("jsonrpc", .str "2.0"), ("method", .str "tools/list")])).1.pending
      = [(1, 0)] ∧
    (mcp_endpoint_step ⟨true, true, none⟩ ⟨0, []⟩ 0
        (.obj [("jsonrpc", .str "2.0"), ("method", .str "tools/list")])).2
      = .awaitingResponse 1 :=
  ⟨rfl, by decide, by decide, rfl⟩

/-- C3 amended: the endpoint classifies solely by the method name:
a message whose string method starts with `notifications/` is treated
as a notification (no table entry, state untouched, empty 204
acknowledgment) whether or not it has an `id`; a message whose method
does not start with that prefix is treated as a request even when it
has no `id`. -/
theorem classification_is_by_method_only (p : ProcState) (s : BState) (slot : Nat)
    (fs : List (String × Json)) (m : String)
    (hm : lookupKey fs "method" = some (.str m)) :
    (strStartsWith m "notifications/" = true →
       mcp_endpoint_classify (.obj fs) = .notif ∧
       (mcp_endpoint_step p s slot (.obj fs)).1 = s ∧
       (mcp_endpoint_step p s slot (.obj fs)).2 = .noContent (notifForwarded p)) ∧
    (strStartsWith m "notifications/" = false →
       mcp_endpoint_classify (.obj fs) = .request) := by
  constructor
  · intro hpre
    have hc : mcp_endpoint_classify (.obj fs) = .notif := by
      simp [mcp_endpoint_classify, hm, hpre]
    exact ⟨hc, by simp [mcp_endpoint_step, hc], by simp [mcp_endpoint_step, hc]⟩
  · intro hpre
    simp [mcp_endpoint_classify, hm, hpre]

/-- C3 witness: a `notifications/initialized` message is classified as
a notification and leaves the bridge state untouched. -/
theorem classification_is_by_method_only_witness :
    mcp_endpoint_classify (.obj [("method", .str "notifications/initialized")]) = .notif ∧
    (mcp_endpoint_step ⟨true, true, none⟩ ⟨0, []⟩ 0
        (.obj [("method", .str "notifications/initialized")])).1 = ⟨0, []⟩ := by
  have h := classification_is_by_method_only ⟨true, true, none⟩ ⟨0, []⟩ 0
      [("method", .str "notifications/initialized")] "notifications/initialized" rfl
  exact ⟨(h.1 (by decide)).1, (h.1 (by decide)).2.1⟩

/-! ## C5 — failures surface as JSON-RPC error objects -/

/-- C5 counterexample: when the original message has no `id` at all, a
failing request is answered with a JSON-RPC error whose id is the
integer `0` (the `.get` default of line 198), not the JSON null
absence-marker. -/
theorem idless_error_reply_carries_zero :
    jsonGet (.obj [("jsonrpc", .str "2.0"), ("method", .str "tools/call")]) "id" = none ∧
    jsonGet (mcp_endpoint_failure_reply
        (.obj [("jsonrpc", .str "2.0"), ("method", .str "tools/call")])
        (.requestTimeout 30)) "id" = some (.num 0) ∧
    Json.num 0 ≠ Json.null :=
  ⟨rfl, rfl, fun h => nomatch h⟩

/-- C5 amended: every per-request failure (timeout, crash, write
failure — whether rejected by the liveness prechecks or raised
mid-write and caught by the generic handler) is surfaced as a JSON-RPC
error object with the fixed internal-error code `-32603` — never as a
raw transport error or unhandled fault — whose id is the caller's
original id verbatim when the message had one, and the integer `0`
(not the null absence-marker) when it had none. -/
theorem failures_become_jsonrpc_error_objects (msg : Json) (e : BridgeError) :
    jsonGet (mcp_endpoint_failure_reply msg e) "jsonrpc" = some (.str "2.0") ∧
    jsonGet (mcp_endpoint_failure_reply msg e) "error" =
      some (.obj [("code", .num (-32603)),
                  ("message", .str ("Internal error: " ++ errText e))]) ∧
    jsonGet (mcp_endpoint_failure_reply msg e) "id" = some (mcp_endpoint_message_id msg) ∧
    (∀ fs v, msg = .obj fs → lookupKey fs "id" = some v →
       mcp_endpoint_message_id msg = v) ∧
    (∀ fs, msg = .obj fs → lookupKey fs "id" = none →
       mcp_endpoint_message_id msg = .num 0) := by
  refine ⟨rfl, rfl, rfl, ?_, ?_⟩
  · intro fs v hm hl
    subst hm
    simp [mcp_endpoint_message_id, hl]
  · intro fs hm hl
    subst hm
    simp [mcp_endpoint_message_id, hl]

/-- C5 witness: a crash failure on a message with string id `"abc"`
is answered with a JSON-RPC error carrying exactly that id. -/
theorem failures_become_jsonrpc_error_objects_witness :
    jsonGet (mcp_endpoint_failure_reply (.obj [("id", .str "abc")]) .processCrashed) "id" =
      some (.str "abc") ∧
    mcp_endpoint_message_id (.obj [("id", .str "abc")]) = .str "abc" := by
  have h := failures_become_jsonrpc_error_objects (.obj [("id", .str "abc")]) .processCrashed
  have hid := h.2.2.2.1 [("id", .str "abc")] (.str "abc") rfl rfl
  exact ⟨by rw [h.2.2.1, hid], hid⟩

/-! ## C10 — notifications after the child is gone -/

/-- C10: a message classified as a notification, arriving when the
process handle is absent or its exit status is already set, skips the
stdin write entirely and still returns the empty 204 acknowledgment
with the bridge state untouched; no error surfaces to the caller. -/
theorem notification_after_child_gone (p : ProcState) (s : BState) (slot : Nat)
    (msg : Json) (hn : mcp_endpoint_classify msg = .notif)
    (hgone : p.present = false ∨ p.returncode ≠ none) :
    mcp_endpoint_step p s slot msg = (s, .noContent false) := by
  have hw : notifForwarded p = false := by
    rcases hgone with h | h
    · simp [notifForwarded, h]
    · have hisNone : p.returncode.isNone = false := by
        cases hrc : p.returncode with
        | none => exact absurd hrc h
        | some c => rfl
      simp [notifForwarded, hisNone]
  simp [mcp_endpoint_step, hn, hw]

/-- C10 witness: `notifications/initialized` sent while no process
handle exists is silently dropped and acknowledged with 204. -/
theorem notification_after_child_gone_witness :
    mcp_endpoint_step ⟨false, true, none⟩ ⟨0, []⟩ 0
        (.obj [("method", .str "notifications/initialized")]) =
      (⟨0, []⟩, .noContent false) :=
  notification_after_child_gone ⟨false, true, none⟩ ⟨0, []⟩ 0
    (.obj [("method", .str "notifications/initialized")]) (by decide) (Or.inl rfl)

end McpBridge
